import Mathlib

/-!
Verification of the proxy-checker-api repository (Go) against its
natural-language specification.  The Go sources are shallowly embedded:
pure fragments become Lean functions, stateful fragments become explicit
state passing, Go machine integers become Nat/Int (all quantities involved
stay far below 2^63, and the few float64 computations in the source are
modelled by the exact rational value they compute at the relevant widths),
Go time.Time values become Int Unix seconds, and Go strings become Lean
String (or List Char in the aggregator, where character-level reasoning
about TrimSpace/ToLower is needed).
-/

namespace ProxyChecker

/-- Embedding of types.Proxy / snapshot.Proxy (the variant used by
cmd/main.go, with Protocol and Source fields; the zero value of a missing
field is the empty string, as in Go). -/
structure Proxy where
  address : String
  protocol : String
  source : String
  alive : Bool
  latencyMs : Int
  lastCheck : Int
deriving DecidableEq, Repr, Inhabited

/-- Embedding of snapshot.Stats (SourceStats is carried opaquely by the
code and never inspected by the claims, so it is omitted; AlivePercent is
a float64 in Go, modelled by the exact rational it denotes). -/
structure Stats where
  totalScraped : Nat
  totalAlive : Nat
  totalDead : Nat
  alivePercent : Rat
  lastCheckTime : Int
deriving DecidableEq, Repr, Inhabited

/-- Embedding of snapshot.Snapshot. -/
structure Snapshot where
  proxies : List Proxy
  stats : Stats
  updated : Int
deriving DecidableEq, Repr, Inhabited

/-- Embedding of checker.CheckResult. -/
structure CheckResult where
  proxy : String
  protocol : String
  alive : Bool
  latencyMs : Int
  error : String
deriving DecidableEq, Repr, Inhabited

/-- State of snapshot.Manager: the atomically published snapshot plus the
round-robin counter (the Go uint64 counter is modelled by Nat; every claim
is insensitive to wrap-around). -/
structure ManagerState where
  snap : Snapshot
  rrIndex : Nat
deriving DecidableEq, Repr, Inhabited

/-- NewManager stores an initial empty snapshot (snapshot.go lines 45-65). -/
def initialSnapshot (now : Int) : Snapshot :=
  { proxies := [],
    stats := { totalScraped := 0, totalAlive := 0, totalDead := 0,
               alivePercent := 0, lastCheckTime := 0 },
    updated := now }

/-- The manager state right after NewManager. -/
def newManagerState (now : Int) : ManagerState :=
  { snap := initialSnapshot now, rrIndex := 0 }

/-- Manager.Update: atomically swaps the current snapshot (snapshot.go
lines 67-80; the asynchronous persistence write does not touch the
in-memory state). -/
def managerUpdate (st : ManagerState) (proxies : List Proxy) (stats : Stats)
    (now : Int) : ManagerState :=
  { st with snap := { proxies := proxies, stats := stats, updated := now } }

/-- Manager.Get: atomic read of the current snapshot (snapshot.go 82-85). -/
def managerGet (st : ManagerState) : Snapshot :=
  st.snap

/-! ## C10: authentication middleware (server.go lines 184-213) -/

/-- Outcome of the gin middleware chain for one request: either the
request proceeds (c.Next) or it is aborted with 401. -/
inductive AuthDecision where
  | allow
  | reject401
deriving DecidableEq, Repr

/-- NewServer evaluates os.Getenv(cfg.API.APIKeyEnv) once, at middleware
construction (server.go line 185); env models the process environment. -/
def serverExpectedKey (env : String → String) (apiKeyEnv : String) : String :=
  env apiKeyEnv

/-- Embedding of authMiddleware (server.go lines 190-212): with an empty
expected key every request passes; otherwise the X-Api-Key header is
consulted first and, when empty, the key query parameter; a mismatch is a
401 abort. -/
def authMiddleware (expectedKey headerKey queryKey : String) : AuthDecision :=
  if expectedKey = "" then
    AuthDecision.allow
  else
    let apiKey := if headerKey = "" then queryKey else headerKey
    if apiKey = expectedKey then AuthDecision.allow else AuthDecision.reject401

/-! ## C4: adaptive concurrency (checker.go lines 294-336)

adjustConcurrency reads runtime.NumGoroutine, getrlimit(RLIMIT_NOFILE) and
runtime.MemStats.Alloc; those observations are parameters here.  rlim is
none when the getrlimit call fails (that branch is skipped in Go).  The
float64 steps are exact at the relevant values: requested*1.5 > rlim*pct/100
iff requested*150 > rlim*pct, int(availableFDs/1.5) is the floor
rlim*pct/150, and Alloc/2^30 > 2.0 iff Alloc > 2^31. -/

/-- Trailing memory check of adjustConcurrency (checker.go lines 322-335). -/
def memoryAdjust (requested : Nat) (allocBytes : Nat) : Nat :=
  if 2 * 1024 ^ 3 < allocBytes then requested * 7 / 10 else requested

/-- Embedding of adjustConcurrency (checker.go lines 294-336): an if/else
chain, each branch returning immediately. -/
def adjustConcurrency (requested numGoroutines : Nat) (rlim : Option Nat)
    (maxFdPct : Nat) (allocBytes : Nat) : Nat :=
  if requested * 2 < numGoroutines then
    requested * 6 / 10
  else
    match rlim with
    | some cur =>
        if cur * maxFdPct < requested * 150 then
          let adjusted := cur * maxFdPct / 150
          if adjusted < 100 then 100 else adjusted
        else
          memoryAdjust requested allocBytes
    | none => memoryAdjust requested allocBytes

/-! ## C3: the SOCKS4 check (checker.go socks variant, snapshot.go blob
lines 227-259 and unnamed/part_007)

CheckSOCKS4 builds its dialer with golang.org/x/net/proxy.SOCKS5 and dials
www.google.com:80 through it.  The x/net library is an external
collaborator; its observable interface is the SOCKS version it speaks:
a dialer returned by proxy.SOCKS5 opens every connection with the version
5 greeting bytes 05 01 00 (version, one method, no-auth). -/

/-- The wire-level view of a SOCKS dialer: the protocol version byte it
sends first and its full initial greeting. -/
structure SocksDialer where
  proxyAddress : String
  versionByte : Nat
  greeting : List Nat
  forwardTarget : String
deriving DecidableEq, Repr

/-- Model of golang.org/x/net/proxy.SOCKS5: a dialer that performs the
SOCKS version-5 negotiation (greeting 05 01 00) with proxyAddr. -/
def mkSocks5Dialer (proxyAddr target : String) : SocksDialer :=
  { proxyAddress := proxyAddr, versionByte := 5, greeting := [5, 1, 0],
    forwardTarget := target }

/-- The first byte of a request in the SOCKS version-4 wire format. -/
def socks4VersionByte : Nat := 4

/-- Embedding of the dialer constructed by Checker.CheckSOCKS4 for a
socks4 candidate: the code calls proxy.SOCKS5("tcp", proxyAddr, nil,
proxy.Direct) and dials "www.google.com:80" through it. -/
def checkSOCKS4Dialer (proxyAddr : String) : SocksDialer :=
  mkSocks5Dialer proxyAddr "www.google.com:80"

/-- Embedding of the dialer constructed by Checker.CheckSOCKS5 (identical
construction, which is correct for socks5). -/
def checkSOCKS5Dialer (proxyAddr : String) : SocksDialer :=
  mkSocks5Dialer proxyAddr "www.google.com:80"

/-! ## Snapshot store operations (snapshot.go lines 87-140, 176-205) -/

/-- Manager.GetProxy (snapshot.go lines 87-97): round-robin selection of a
single proxy; the counter is bumped even on the selecting read. -/
def managerGetProxy (st : ManagerState) : Option Proxy × ManagerState :=
  let total := st.snap.proxies.length
  if total = 0 then
    (none, st)
  else
    let rr := st.rrIndex + 1
    (some (st.snap.proxies.getD (rr % total) default), { st with rrIndex := rr })

/-- Manager.GetProxies (snapshot.go lines 99-131).  n is a Go int (may be
non-positive); perm supplies the rand.Perm(total) draw used on the random
branch (out-of-range entries default to 0, mirroring nothing reachable:
rand.Perm always returns a permutation of 0..total-1). -/
def managerGetProxies (st : ManagerState) (n : Int) (perm : List Nat) :
    List Proxy × ManagerState :=
  let total := st.snap.proxies.length
  if total = 0 then
    ([], st)
  else
    let nn : Nat := if n ≤ 0 ∨ (total : Int) < n then total else n.toNat
    if nn ≤ 10 then
      let rr := st.rrIndex + nn
      let start := rr % total
      ((List.range nn).map (fun i => st.snap.proxies.getD ((start + i) % total) default),
       { st with rrIndex := rr })
    else
      ((List.range nn).map (fun i => st.snap.proxies.getD (perm.getD i 0) default), st)

/-- The copy loop of Manager.GetAll (snapshot.go lines 133-140): a fresh
slice is allocated and the proxies are copied into it element by element. -/
def copyProxies : List Proxy → List Proxy
  | [] => []
  | p :: ps => p :: copyProxies ps

/-- Manager.GetAll: returns the defensive copy; the manager state is not
touched. -/
def managerGetAll (st : ManagerState) : List Proxy × ManagerState :=
  (copyProxies st.snap.proxies, st)

/-- Manager.GetStats (snapshot.go lines 142-146). -/
def managerGetStats (st : ManagerState) : Stats :=
  st.snap.stats

/-- Manager.LoadFromStorage (snapshot.go lines 176-205): stored is none
when storage.Load fails or yields nil (the current snapshot is then left
untouched); otherwise entries at most one hour old at load time are kept
(cutoff = now - 1h, kept iff LastCheck is strictly after it), and the
filtered snapshot is stored only when at least one entry survives, with
Stats.TotalAlive rewritten to the surviving count. -/
def loadFromStorage (stored : Option Snapshot) (now : Int) (cur : Snapshot) :
    Snapshot :=
  match stored with
  | none => cur
  | some s =>
    let fresh := s.proxies.filter (fun p => now - 3600 < p.lastCheck)
    if 0 < fresh.length then
      { s with proxies := fresh,
               stats := { s.stats with totalAlive := fresh.length } }
    else
      cur

/-! ## Publish sites (cmd/main.go lines 142-306, server.go lines 317-364)

Each site walks a list of CheckResults keeping the alive ones, counting
alive and dead in step with the list it builds. -/

/-- Proxy entry built for an alive result in runAggregationCycle
(cmd/main.go lines 190-197 and 253-260), tagged with its source. -/
def mkAliveProxy (src : String) (now : Int) (r : CheckResult) : Proxy :=
  { address := r.proxy, protocol := r.protocol, source := src,
    alive := true, latencyMs := r.latencyMs, lastCheck := now }

/-- Proxy entry built for an alive result in handleReload (server.go lines
339-344): Protocol and Source are never set, so they stay the Go zero
value. -/
def mkReloadProxy (now : Int) (r : CheckResult) : Proxy :=
  { address := r.proxy, protocol := "", source := "",
    alive := true, latencyMs := r.latencyMs, lastCheck := now }

/-- The alive/dead accumulation loop shared by the publish sites: returns
(aliveCount, deadCount, aliveProxies) in iteration order. -/
def collectAlive (mk : CheckResult → Proxy) : List CheckResult → Nat × Nat × List Proxy
  | [] => (0, 0, [])
  | r :: rs =>
    let rest := collectAlive mk rs
    if r.alive then (rest.1 + 1, rest.2.1, mk r :: rest.2.2)
    else (rest.1, rest.2.1 + 1, rest.2.2)

/-- Go float64 percentage aliveCount/total*100, with the Go NaN of a 0/0
division modelled by Rat division (which yields 0). -/
def alivePercentOf (alive total : Nat) : Rat :=
  (alive : Rat) / (total : Rat) * 100

/-- The first publish of runAggregationCycle (cmd/main.go lines 180-223):
snapshot contents built from the scraped-batch results. -/
def scrapedPublish (results : List CheckResult) (totalScraped : Nat)
    (now : Int) : List Proxy × Stats :=
  let c := collectAlive (mkAliveProxy "scraped" now) results
  (c.2.2,
   { totalScraped := totalScraped, totalAlive := c.1, totalDead := c.2.1,
     alivePercent := alivePercentOf c.1 results.length, lastCheckTime := now })

/-- The second publish of runAggregationCycle (cmd/main.go lines 225-292):
the union of the scraped alive set and the zmap alive set, with summed
counters. -/
def combinedPublish (scrapedResults zmapResults : List CheckResult)
    (totalScraped : Nat) (now : Int) : List Proxy × Stats :=
  let cs := collectAlive (mkAliveProxy "scraped" now) scrapedResults
  let cz := collectAlive (mkAliveProxy "zmap" now) zmapResults
  (cs.2.2 ++ cz.2.2,
   { totalScraped := totalScraped, totalAlive := cs.1 + cz.1,
     totalDead := cs.2.1 + cz.2.1,
     alivePercent := alivePercentOf (cs.1 + cz.1) (cs.1 + cz.1 + (cs.2.1 + cz.2.1)),
     lastCheckTime := now })

/-- The publish of handleReload (server.go lines 317-364). -/
def reloadPublish (results : List CheckResult) (nProxies : Nat) (now : Int) :
    List Proxy × Stats :=
  let c := collectAlive (mkReloadProxy now) results
  (c.2.2,
   { totalScraped := nProxies, totalAlive := c.1, totalDead := nProxies - c.1,
     alivePercent := alivePercentOf c.1 nProxies, lastCheckTime := now })

/-! ## The /get-proxy handler (server.go lines 238-295) -/

/-- The JSON or text body of an API response; jsonError msg stands for the
document with the single field error holding msg, jsonProxies for the
document with fields total, alive and proxies. -/
inductive RespBody where
  | jsonError (msg : String)
  | jsonProxies (total alive : Nat) (proxies : List Proxy)
  | text (s : String)
deriving DecidableEq, Repr

/-- An HTTP response: status code and body. -/
structure Response where
  status : Nat
  body : RespBody
deriving DecidableEq, Repr

/-- Query parameters and headers read by handleGetProxy; absent parameters
are the empty string (gin c.Query).  protocolParam is the protocol query
parameter: the handler under verification never reads it. -/
structure GetProxyQuery where
  allParam : String
  limitParam : String
  formatParam : String
  acceptHeader : String
  protocolParam : String
deriving DecidableEq, Repr

/-- Embedding of strconv.Atoi restricted to the values the handler
distinguishes: some n on an optionally signed decimal numeral, none on
anything else (the int64-overflow failure of Atoi is not modelled; the
handler treats it the same as any other parse error). -/
def goAtoi (s : String) : Option Int :=
  match s.data with
  | [] => none
  | '+' :: ds => if ds ≠ [] ∧ ds.all Char.isDigit then some (String.toNat! (String.mk ds)) else none
  | '-' :: ds => if ds ≠ [] ∧ ds.all Char.isDigit then some (-(String.toNat! (String.mk ds) : Int)) else none
  | ds => if ds.all Char.isDigit then some (String.toNat! (String.mk ds)) else none

/-- Whether needle occurs at the head of hay. -/
def listStartsWith : List Char → List Char → Bool
  | _, [] => true
  | [], _ => false
  | c :: cs, d :: ds => c == d && listStartsWith cs ds

/-- Whether needle occurs anywhere inside hay. -/
def listHasSub : List Char → List Char → Bool
  | [], needle => needle.isEmpty
  | c :: cs, needle => listStartsWith (c :: cs) needle || listHasSub cs needle

/-- strings.Contains, used on the Accept header. -/
def goContains (hay needle : String) : Bool :=
  listHasSub hay.data needle.data

/-- The plain-text body: one address per line, each followed by a newline
(server.go lines 287-293). -/
def textBody (proxies : List Proxy) : String :=
  proxies.foldl (fun acc p => acc ++ p.address ++ "\n") ""

/-- Embedding of handleGetProxy (server.go lines 238-295).  perm feeds the
rand.Perm draw of GetProxies.  The protocol query parameter is carried in
q but never consulted, exactly as in the handler. -/
def handleGetProxy (st : ManagerState) (q : GetProxyQuery) (perm : List Nat) :
    Response × ManagerState :=
  let snap := managerGet st
  if snap.proxies.length = 0 then
    ({ status := 503, body := RespBody.jsonError "No alive proxies available" }, st)
  else
    let all := q.allParam = "1"
    let wantsJSON := q.formatParam = "json" ∨ goContains q.acceptHeader "application/json"
    let picked : Option (List Proxy × ManagerState) :=
      if all then
        some (managerGetAll st)
      else if q.limitParam ≠ "" then
        match goAtoi q.limitParam with
        | none => none
        | some l => if l < 1 then none else some (managerGetProxies st l perm)
      else
        match managerGetProxy st with
        | (none, st1) => some ([], st1)
        | (some p, st1) => some ([p], st1)
    match picked with
    | none =>
      ({ status := 400, body := RespBody.jsonError "Invalid limit parameter" }, st)
    | some (proxies, st1) =>
      if ¬ all ∧ q.limitParam = "" ∧ proxies = [] then
        ({ status := 503, body := RespBody.jsonError "No proxies available" }, st1)
      else if wantsJSON then
        ({ status := 200,
           body := RespBody.jsonProxies snap.proxies.length snap.stats.totalAlive proxies },
         st1)
      else
        ({ status := 200, body := RespBody.text (textBody proxies) }, st1)

/-! ## C5: retries (checker.go lines 179-207 and 343-404)

The network is an oracle f : Nat → CheckResult giving the outcome of the
i-th attempt (i counts from 0).  A run is summarised by the result
returned, the number of attempts performed, and the backoff sleeps taken
(in milliseconds, in order). -/

/-- Summary of one retry loop execution. -/
structure RetryTrace where
  result : CheckResult
  attemptsMade : Nat
  backoffsMs : List Nat
deriving DecidableEq, Repr

/-- The clamp maxRetries := max(Retries, 0) at the top of both retry loops
(checker.go lines 180-183 and 347-350). -/
def clampRetries (retries : Int) : Nat :=
  (max retries 0).toNat

/-- The common retry loop: attempt indices run from a; remaining is how
many attempts are still allowed; before every attempt with index > 0 the
loop sleeps attempt*attempt*100 ms; on exhaustion it returns a dead
CheckResult carrying the last error (checker.go lines 187-206; the socks
loop at 354-403 differs only in the Protocol stamped on the failure
result, passed here as failProto). -/
def retryGo (f : Nat → CheckResult) (proxyAddr failProto : String) :
    Nat → Nat → String → RetryTrace
  | _, 0, lastErr =>
    { result := { proxy := proxyAddr, protocol := failProto, alive := false,
                  latencyMs := 0, error := lastErr },
      attemptsMade := 0, backoffsMs := [] }
  | a, r + 1, _ =>
    let res := f a
    let sleeps := if 0 < a then [a * a * 100] else []
    if res.alive then
      { result := res, attemptsMade := 1, backoffsMs := sleeps }
    else
      let t := retryGo f proxyAddr failProto (a + 1) r res.error
      { result := t.result, attemptsMade := t.attemptsMade + 1,
        backoffsMs := sleeps ++ t.backoffsMs }

/-- checkProxyWithRetries (checker.go lines 179-207): up to
clampRetries retries + 1 attempts starting at attempt 0; the failure
result leaves Protocol at the Go zero value. -/
def checkProxyWithRetries (retries : Int) (proxyAddr : String)
    (f : Nat → CheckResult) : RetryTrace :=
  retryGo f proxyAddr "" 0 (clampRetries retries + 1) ""

/-- The socks4/socks5 branch of CheckSingleWithProtocol (checker.go lines
354-403): when SOCKS checking is disabled the loop returns at its first
iteration without any network attempt; otherwise the per-attempt check is
CheckSOCKS4/CheckSOCKS5 with the result Protocol stamped to proto. -/
def checkSingleSocks (retries : Int) (socksEnabled : Bool)
    (proto proxyAddr : String) (f : Nat → CheckResult) : RetryTrace :=
  if socksEnabled then
    retryGo (fun i => { f i with protocol := proto }) proxyAddr proto 0
      (clampRetries retries + 1) ""
  else
    { result := { proxy := proxyAddr, protocol := proto, alive := false,
                  latencyMs := 0, error := "SOCKS checking disabled" },
      attemptsMade := 0, backoffsMs := [] }

/-- The per-candidate dispatch of checkProxiesInBatches (cmd/main.go lines
362-443): socks4 and socks5 candidates go through
CheckProxyWithProtocol = CheckSingleWithProtocol, every other protocol is
checked as HTTP through CheckProxies, whose worker runs
checkProxyWithRetries once per candidate. -/
def validateCandidate (retries : Int) (socksEnabled : Bool)
    (proto proxyAddr : String) (f : Nat → CheckResult) : RetryTrace :=
  if proto = "socks4" ∨ proto = "socks5" then
    checkSingleSocks retries socksEnabled proto proxyAddr f
  else
    checkProxyWithRetries retries proxyAddr f

/-- The backoff schedule the claim describes: before the k-th retry
(k = 1, 2, ...) sleep k*k*100 ms; a run of n attempts therefore sleeps for
attempts 1..n-1. -/
def backoffSchedule (attempts : Nat) : List Nat :=
  (List.range' 1 (attempts - 1)).map (fun k => k * k * 100)

/-! ## C7: aggregator parse and dedup (aggregator.go, protocol-aware
variant: types.go blob lines 255-479)

Go strings are List Char here so that strings.TrimSpace and
strings.ToLower can be reasoned about per character. -/

/-- A scraped candidate: aggregator.ProxyWithProtocol. -/
structure PP where
  address : List Char
  protocol : List Char
deriving DecidableEq, Repr

/-- unicode.IsSpace on the Latin-1 range, the characters strings.TrimSpace
strips (space, tab, newline, vertical tab, form feed, carriage return,
next line, no-break space). -/
def goIsSpace (c : Char) : Bool :=
  c == ' ' || c == '\t' || c == '\n' || c == '\x0b' || c == '\x0c' ||
  c == '\x0d' || c == '\x85' || c == '\xa0'

/-- Strip leading space characters. -/
def goTrimLeft : List Char → List Char
  | [] => []
  | c :: cs => if goIsSpace c then goTrimLeft cs else c :: cs

/-- strings.TrimSpace: strip leading and trailing space characters. -/
def goTrimSpace (s : List Char) : List Char :=
  (goTrimLeft (goTrimLeft s).reverse).reverse

/-- strings.ToLower restricted to ASCII letters (the only characters the
parsed addresses can contain are unaffected either way). -/
def goToLower (s : List Char) : List Char :=
  s.map (fun c => if 'A' ≤ c ∧ c ≤ 'Z' then Char.ofNat (c.toNat + 32) else c)

/-- The digit class of the regex. -/
def isGoDigit (c : Char) : Bool :=
  '0' ≤ c ∧ c ≤ '9'

/-- Maximal digit run at the head of s. -/
def takeDigits : List Char → List Char
  | [] => []
  | c :: cs => if isGoDigit c then c :: takeDigits cs else []

/-- One octet of the regex, the group d{1,3} followed by a non-digit
continuation (dot or colon).  Backtracking to a shorter take never helps:
a shorter take leaves a digit in front of the continuation, which the
continuation (starting with a dot or a colon) rejects; so the octet
matches iff the maximal digit run has length 1..3, and it consumes the
whole run. -/
def matchOctet (s : List Char) : Option (List Char × List Char) :=
  let ds := takeDigits s
  if 1 ≤ ds.length ∧ ds.length ≤ 3 then some (ds, s.drop ds.length) else none

/-- Expect character c at the head. -/
def matchChar (c : Char) : List Char → Option (List Char)
  | [] => none
  | d :: ds => if d = c then some ds else none

/-- The tail of the regex at a position: dotted quad, then a colon, then
the port group d{2,5} (greedy, nothing follows it, so it takes the first
min(run, 5) digits and needs a run of at least 2).  Returns the ip group
and the port group. -/
def matchIpPort (s : List Char) : Option (List Char × List Char) := do
  let (o1, s1) ← matchOctet s
  let s2 ← matchChar '.' s1
  let (o2, s3) ← matchOctet s2
  let s4 ← matchChar '.' s3
  let (o3, s5) ← matchOctet s4
  let s6 ← matchChar '.' s5
  let (o4, s7) ← matchOctet s6
  let s8 ← matchChar ':' s7
  let ps := takeDigits s8
  if 2 ≤ ps.length then
    pure (o1 ++ '.' :: o2 ++ '.' :: o3 ++ '.' :: o4, ps.take 5)
  else
    none

/-- The optional scheme group with its :// suffix, alternatives tried in
the order of the pattern (socks5|socks4|https?); https is preferred over
http by greediness of the ? and the alternatives are mutually exclusive
prefixes, so trying them in this order is exact.  Returns the captured
scheme text and the rest. -/
def matchScheme (s : List Char) : Option (List Char × List Char) :=
  if listStartsWith s ("socks5://".data) then some ("socks5".data, s.drop 9)
  else if listStartsWith s ("socks4://".data) then some ("socks4".data, s.drop 9)
  else if listStartsWith s ("https://".data) then some ("https".data, s.drop 8)
  else if listStartsWith s ("http://".data) then some ("http".data, s.drop 7)
  else none

/-- One anchored attempt of the whole pattern at a position: the optional
group prefers to be present; when the scheme matched but the address part
fails, the engine falls back to the absent branch at the same position
(which then necessarily fails too, since the position starts with a
letter, but the fallback is kept for fidelity).  The scheme group is []
when absent, as Go exposes an unmatched group as the empty string. -/
def matchAt (s : List Char) : Option (List Char × List Char × List Char) :=
  match matchScheme s with
  | some (sch, rest) =>
    (match matchIpPort rest with
     | some (ip, port) => some (sch, ip, port)
     | none =>
       match matchIpPort s with
       | some (ip, port) => some ([], ip, port)
       | none => none)
  | none =>
    match matchIpPort s with
    | some (ip, port) => some ([], ip, port)
    | none => none

/-- proxyRegex.FindStringSubmatch: the leftmost match wins; positions are
tried from the left. -/
def findMatch : List Char → Option (List Char × List Char × List Char)
  | [] => none
  | c :: cs =>
    match matchAt (c :: cs) with
    | some m => some m
    | none => findMatch cs

/-- Protocol resolution for an explicit scheme group in the line
(types.go blob lines 437-448): socks5 and socks4 stand for themselves,
http and https both mean http. -/
def protocolOfScheme (sch : List Char) : List Char :=
  if sch = "socks5".data then "socks5".data
  else if sch = "socks4".data then "socks4".data
  else "http".data

/-- parseProxies applied to one scanner line (types.go blob lines
424-456): trim, skip blank lines and comment lines, find the first regex
match, and resolve the protocol (explicit scheme first, otherwise the
source default). -/
def parseLine (defaultProtocol : List Char) (line : List Char) : Option PP :=
  let t := goTrimSpace line
  if t = [] ∨ t.headD ' ' = '#' then
    none
  else
    match findMatch t with
    | none => none
    | some (sch, ip, port) =>
      let detected := if sch = [] then defaultProtocol else protocolOfScheme sch
      some { address := ip ++ ':' :: port, protocol := detected }

/-- parseProxies over the bag of lines of a source body. -/
def parseProxies (defaultProtocol : List Char) (lines : List (List Char)) :
    List PP :=
  lines.filterMap (parseLine defaultProtocol)

/-- The dedup key lowercase(trim(address)) | protocol (types.go blob line
471). -/
def dedupKey (p : PP) : List Char :=
  goToLower (goTrimSpace p.address) ++ '|' :: p.protocol

/-- The loop of deduplicateProxies with its seen set (types.go blob lines
465-479): the first entry for each key is kept, in input order. -/
def dedupGo (seen : List (List Char)) : List PP → List PP
  | [] => []
  | p :: ps =>
    if dedupKey p ∈ seen then dedupGo seen ps
    else p :: dedupGo (dedupKey p :: seen) ps

/-- deduplicateProxies (types.go blob lines 465-479). -/
def deduplicateProxies (l : List PP) : List PP :=
  dedupGo [] l

/-- The (address, protocol) pair of a candidate, the identity the spec
talks about. -/
def ppPair (p : PP) : List Char × List Char :=
  (p.address, p.protocol)

/-- The dedup key expressed on a bare (address, protocol) pair, without
the normalisation (which is the identity on parsed addresses). -/
def keyOfPair (pr : List Char × List Char) : List Char :=
  pr.1 ++ '|' :: pr.2

/-- The characters a parsed address can consist of: digits, dots and the
one colon. -/
def isAddrChar (c : Char) : Bool :=
  isGoDigit c || c == '.' || c == ':'

/-- A published snapshot with one http and one socks5 proxy, used to
exercise the protocol filter of /get-proxy. -/
def twoProtocolState : ManagerState :=
  { snap :=
      { proxies :=
          [{ address := "1.1.1.1:80", protocol := "http", source := "scraped",
             alive := true, latencyMs := 5, lastCheck := 0 },
           { address := "2.2.2.2:1080", protocol := "socks5", source := "scraped",
             alive := true, latencyMs := 7, lastCheck := 0 }],
        stats := { totalScraped := 2, totalAlive := 2, totalDead := 0,
                   alivePercent := 100, lastCheckTime := 0 },
        updated := 0 },
    rrIndex := 0 }

/-- The request GET /get-proxy?all=1&protocol=socks5&format=json. -/
def allSocks5Query : GetProxyQuery :=
  { allParam := "1", limitParam := "", formatParam := "json",
    acceptHeader := "", protocolParam := "socks5" }

/-! ## Helper lemmas -/

/-- The GetAll copy loop reproduces the proxy sequence faithfully. -/
theorem copyProxies_eq (l : List Proxy) : copyProxies l = l := by
  induction l with
  | nil => rfl
  | cons p ps ih => simp [copyProxies, ih]

/-- In every publish loop the alive counter equals the length of the
alive-proxy list built alongside it. -/
theorem collectAlive_count (mk : CheckResult → Proxy) (l : List CheckResult) :
    (collectAlive mk l).1 = (collectAlive mk l).2.2.length := by
  induction l with
  | nil => rfl
  | cons r rs ih =>
    by_cases h : r.alive <;> simp [collectAlive, h, ih]

/-- Every character of the maximal digit run is a digit. -/
theorem takeDigits_digits : ∀ (s : List Char), ∀ c ∈ takeDigits s, isGoDigit c = true := by
  intro s
  induction s with
  | nil => simp [takeDigits]
  | cons d ds ih =>
    by_cases hd : isGoDigit d
    · intro c hc
      rw [takeDigits, if_pos hd] at hc
      rcases List.mem_cons.mp hc with rfl | hc
      · exact hd
      · exact ih c hc
    · intro c hc
      rw [takeDigits, if_neg hd] at hc
      simp at hc

/-- An octet group consists of digits. -/
theorem matchOctet_digits {s ds rest : List Char}
    (h : matchOctet s = some (ds, rest)) : ∀ c ∈ ds, isGoDigit c = true := by
  unfold matchOctet at h
  dsimp only at h
  split at h
  · simp only [Option.some.injEq, Prod.mk.injEq] at h
    obtain ⟨h1, _⟩ := h
    subst h1
    exact takeDigits_digits s
  · simp at h

/-- A digit is an address character. -/
theorem digit_isAddrChar {c : Char} (h : isGoDigit c = true) : isAddrChar c = true := by
  simp [isAddrChar, h]

/-- Address-character predicates combine over append. -/
theorem append_addr {l1 l2 : List Char} (h1 : ∀ c ∈ l1, isAddrChar c = true)
    (h2 : ∀ c ∈ l2, isAddrChar c = true) : ∀ c ∈ l1 ++ l2, isAddrChar c = true := by
  intro c hc
  rcases List.mem_append.mp hc with hc | hc
  · exact h1 c hc
  · exact h2 c hc

/-- Address-character predicates combine over cons. -/
theorem cons_addr {d : Char} {l : List Char} (hd : isAddrChar d = true)
    (h : ∀ c ∈ l, isAddrChar c = true) : ∀ c ∈ d :: l, isAddrChar c = true := by
  intro c hc
  rcases List.mem_cons.mp hc with rfl | hc
  · exact hd
  · exact h c hc

/-- Both groups of a dotted-quad-colon-port match consist of address
characters. -/
theorem matchIpPort_shape {s ip port : List Char}
    (h : matchIpPort s = some (ip, port)) :
    (∀ c ∈ ip, isAddrChar c = true) ∧ ∀ c ∈ port, isAddrChar c = true := by
  unfold matchIpPort at h
  simp only [bind, Option.bind_eq_some] at h
  obtain ⟨⟨o1, s1⟩, h1, h⟩ := h
  obtain ⟨s2, hc1, h⟩ := h
  obtain ⟨⟨o2, s3⟩, h2, h⟩ := h
  obtain ⟨s4, hc2, h⟩ := h
  obtain ⟨⟨o3, s5⟩, h3, h⟩ := h
  obtain ⟨s6, hc3, h⟩ := h
  obtain ⟨⟨o4, s7⟩, h4, h⟩ := h
  obtain ⟨s8, hc4, h⟩ := h
  dsimp only at h
  split at h
  · simp only [pure, Option.some.injEq, Prod.mk.injEq] at h
    obtain ⟨hip, hport⟩ := h
    subst hip
    subst hport
    have ho1 : ∀ c ∈ o1, isAddrChar c = true :=
      fun c hc => digit_isAddrChar (matchOctet_digits h1 c hc)
    have ho2 : ∀ c ∈ o2, isAddrChar c = true :=
      fun c hc => digit_isAddrChar (matchOctet_digits h2 c hc)
    have ho3 : ∀ c ∈ o3, isAddrChar c = true :=
      fun c hc => digit_isAddrChar (matchOctet_digits h3 c hc)
    have ho4 : ∀ c ∈ o4, isAddrChar c = true :=
      fun c hc => digit_isAddrChar (matchOctet_digits h4 c hc)
    constructor
    · exact append_addr
        (append_addr
          (append_addr ho1 (cons_addr (by decide) ho2))
          (cons_addr (by decide) ho3))
        (cons_addr (by decide) ho4)
    · intro c hc
      exact digit_isAddrChar
        (takeDigits_digits s8 c (List.take_subset 5 (takeDigits s8) hc))
  · simp at h

/-- One anchored attempt yields groups made of address characters. -/
theorem matchAt_shape {s : List Char} {g : List Char × List Char × List Char}
    (h : matchAt s = some g) :
    (∀ c ∈ g.2.1, isAddrChar c = true) ∧ ∀ c ∈ g.2.2, isAddrChar c = true := by
  unfold matchAt at h
  cases hs : matchScheme s with
  | none =>
    rw [hs] at h
    cases hip : matchIpPort s with
    | none => rw [hip] at h; simp at h
    | some ipport =>
      obtain ⟨ip, port⟩ := ipport
      rw [hip] at h
      simp only [Option.some.injEq] at h
      subst h
      exact matchIpPort_shape hip
  | some schrest =>
    obtain ⟨sch, rest⟩ := schrest
    rw [hs] at h
    dsimp only at h
    cases hip : matchIpPort rest with
    | some ipport =>
      obtain ⟨ip, port⟩ := ipport
      rw [hip] at h
      simp only [Option.some.injEq] at h
      subst h
      exact matchIpPort_shape hip
    | none =>
      rw [hip] at h
      cases hip2 : matchIpPort s with
      | none => rw [hip2] at h; simp at h
      | some ipport =>
        obtain ⟨ip, port⟩ := ipport
        rw [hip2] at h
        simp only [Option.some.injEq] at h
        subst h
        exact matchIpPort_shape hip2

/-- The leftmost match yields groups made of address characters. -/
theorem findMatch_shape : ∀ (s : List Char) {g : List Char × List Char × List Char},
    findMatch s = some g →
    (∀ c ∈ g.2.1, isAddrChar c = true) ∧ ∀ c ∈ g.2.2, isAddrChar c = true := by
  intro s
  induction s with
  | nil => intro g h; simp [findMatch] at h
  | cons c cs ih =>
    intro g h
    unfold findMatch at h
    cases hm : matchAt (c :: cs) with
    | some m =>
      rw [hm] at h
      simp only [Option.some.injEq] at h
      subst h
      exact matchAt_shape hm
    | none =>
      rw [hm] at h
      exact ih h

/-- A candidate produced by parseLine has an address made of address
characters. -/
theorem parseLine_shape {d line : List Char} {p : PP}
    (h : parseLine d line = some p) : ∀ c ∈ p.address, isAddrChar c = true := by
  unfold parseLine at h
  dsimp only at h
  split at h
  · simp at h
  · cases hm : findMatch (goTrimSpace line) with
    | none => rw [hm] at h; simp at h
    | some g =>
      obtain ⟨sch, ip, port⟩ := g
      rw [hm] at h
      dsimp only at h
      simp only [Option.some.injEq] at h
      subst h
      obtain ⟨hips, hports⟩ := findMatch_shape (goTrimSpace line) hm
      exact append_addr hips (cons_addr (by decide) hports)

/-- Every parsed candidate has a well-shaped address. -/
theorem parsed_shape {d : List Char} {lines : List (List Char)} {p : PP}
    (h : p ∈ parseProxies d lines) : ∀ c ∈ p.address, isAddrChar c = true := by
  obtain ⟨line, _, hp⟩ := List.mem_filterMap.mp h
  exact parseLine_shape hp

/-- A space character is never an address character. -/
theorem space_not_addrChar {c : Char} (h : goIsSpace c = true) :
    isAddrChar c = false := by
  simp only [goIsSpace, Bool.or_eq_true, beq_iff_eq] at h
  rcases h with ((((((h | h) | h) | h) | h) | h) | h) | h <;> subst h <;> decide

/-- An address character is never a space character. -/
theorem addrChar_not_space {c : Char} (h : isAddrChar c = true) :
    goIsSpace c = false := by
  cases hgs : goIsSpace c with
  | false => rfl
  | true =>
    rw [space_not_addrChar hgs] at h
    exact absurd h (by simp)

/-- An address character is never an upper-case ASCII letter. -/
theorem addrChar_not_upper {c : Char} (h : isAddrChar c = true) :
    ¬ ('A' ≤ c ∧ c ≤ 'Z') := by
  rintro ⟨h1, _⟩
  simp only [isAddrChar, isGoDigit, Bool.or_eq_true, beq_iff_eq,
    decide_eq_true_eq] at h
  rcases h with (hd | h) | h
  · exact absurd (le_trans h1 hd.2) (by decide)
  · subst h; exact absurd h1 (by decide)
  · subst h; exact absurd h1 (by decide)

/-- An address character is never the key separator bar. -/
theorem addrChar_ne_pipe {c : Char} (h : isAddrChar c = true) : c ≠ '|' := by
  intro hc
  subst hc
  exact absurd h (by decide)

/-- TrimLeft is the identity on space-free strings. -/
theorem goTrimLeft_eq_self {s : List Char} (h : ∀ c ∈ s, goIsSpace c = false) :
    goTrimLeft s = s := by
  cases s with
  | nil => rfl
  | cons c cs =>
    rw [goTrimLeft, if_neg]
    simp [h c (List.mem_cons_self c cs)]

/-- TrimSpace is the identity on space-free strings. -/
theorem goTrimSpace_eq_self {s : List Char} (h : ∀ c ∈ s, goIsSpace c = false) :
    goTrimSpace s = s := by
  unfold goTrimSpace
  rw [goTrimLeft_eq_self h,
      goTrimLeft_eq_self (fun c hc => h c (List.mem_reverse.mp hc)),
      List.reverse_reverse]

/-- ToLower is the identity on strings of address characters. -/
theorem goToLower_eq_self {s : List Char} (h : ∀ c ∈ s, isAddrChar c = true) :
    goToLower s = s := by
  induction s with
  | nil => rfl
  | cons c cs ih =>
    have hc := addrChar_not_upper (h c (List.mem_cons_self c cs))
    simp only [goToLower, List.map_cons, if_neg hc]
    have := ih (fun d hd => h d (List.mem_cons_of_mem c hd))
    simp only [goToLower] at this
    rw [this]

/-- On a well-shaped candidate the dedup key is the bare
address-bar-protocol concatenation. -/
theorem dedupKey_shaped {p : PP} (h : ∀ c ∈ p.address, isAddrChar c = true) :
    dedupKey p = p.address ++ '|' :: p.protocol := by
  unfold dedupKey
  rw [goTrimSpace_eq_self (fun c hc => addrChar_not_space (h c hc)),
      goToLower_eq_self h]

/-- Splitting at the first bar: with bar-free left parts, the key
concatenation is injective in both components. -/
theorem pipe_split_inj : ∀ (a1 a2 : List Char) {p1 p2 : List Char},
    '|' ∉ a1 → '|' ∉ a2 → a1 ++ '|' :: p1 = a2 ++ '|' :: p2 →
    a1 = a2 ∧ p1 = p2 := by
  intro a1
  induction a1 with
  | nil =>
    intro a2 p1 p2 _ h2 he
    cases a2 with
    | nil => simpa using he
    | cons b bs =>
      exfalso
      simp only [List.nil_append, List.cons_append] at he
      injection he with hb _
      exact h2 (hb ▸ List.mem_cons_self b bs)
  | cons a as ih =>
    intro a2 p1 p2 h1 h2 he
    cases a2 with
    | nil =>
      exfalso
      simp only [List.cons_append, List.nil_append] at he
      injection he with hb _
      exact h1 (hb ▸ List.mem_cons_self a as)
    | cons b bs =>
      simp only [List.cons_append] at he
      injection he with h3 h4
      obtain ⟨hA, hP⟩ := ih bs
        (fun hm => h1 (List.mem_cons_of_mem a hm))
        (fun hm => h2 (List.mem_cons_of_mem b hm)) h4
      exact ⟨by rw [h3, hA], hP⟩

/-- The dedup loop only keeps input entries. -/
theorem dedupGo_subset : ∀ (l : List PP) (seen : List (List Char)) (p : PP),
    p ∈ dedupGo seen l → p ∈ l := by
  intro l
  induction l with
  | nil => intro seen p h; simp [dedupGo] at h
  | cons q qs ih =>
    intro seen p h
    by_cases hq : dedupKey q ∈ seen
    · rw [dedupGo, if_pos hq] at h
      exact List.mem_cons_of_mem q (ih seen p h)
    · rw [dedupGo, if_neg hq] at h
      rcases List.mem_cons.mp h with rfl | hmem
      · exact List.mem_cons_self _ _
      · exact List.mem_cons_of_mem q (ih _ p hmem)

/-- Keys of the dedup loop output: no duplicates, and a key appears iff it
appears in the input and is not already in the seen set. -/
theorem dedupGo_keys : ∀ (l : List PP) (seen : List (List Char)),
    ((dedupGo seen l).map dedupKey).Nodup ∧
    ∀ k, k ∈ (dedupGo seen l).map dedupKey ↔ k ∈ l.map dedupKey ∧ k ∉ seen := by
  intro l
  induction l with
  | nil =>
    intro seen
    refine ⟨by simp [dedupGo], fun k => by simp [dedupGo]⟩
  | cons q qs ih =>
    intro seen
    by_cases hq : dedupKey q ∈ seen
    · rw [dedupGo, if_pos hq]
      obtain ⟨hnd, hmem⟩ := ih seen
      refine ⟨hnd, fun k => ?_⟩
      rw [hmem k]
      simp only [List.map_cons, List.mem_cons]
      constructor
      · rintro ⟨hk, hns⟩
        exact ⟨Or.inr hk, hns⟩
      · rintro ⟨hk | hk, hns⟩
        · subst hk; exact absurd hq hns
        · exact ⟨hk, hns⟩
    · rw [dedupGo, if_neg hq]
      obtain ⟨hnd, hmem⟩ := ih (dedupKey q :: seen)
      constructor
      · rw [List.map_cons]
        refine List.nodup_cons.mpr ⟨fun hcontra => ?_, hnd⟩
        exact ((hmem (dedupKey q)).mp hcontra).2 (List.mem_cons_self _ _)
      · intro k
        rw [List.map_cons, List.mem_cons, hmem k]
        simp only [List.map_cons, List.mem_cons]
        constructor
        · rintro (rfl | ⟨hk, hns⟩)
          · exact ⟨Or.inl rfl, hq⟩
          · exact ⟨Or.inr hk, fun hs => hns (Or.inr hs)⟩
        · rintro ⟨hk | hk, hns⟩
          · exact Or.inl hk
          · by_cases hkq : k = dedupKey q
            · exact Or.inl hkq
            · refine Or.inr ⟨hk, ?_⟩
              simp [List.mem_cons, hkq, hns]

/-- Behaviour of the retry loop from any attempt index a at least 1: it
makes at most r further attempts, sleeps k*k*100 ms before each attempt k
it enters, and on a run where every attempt fails it reports the error of
the last attempt made (or the incoming lastErr when no attempt is left). -/
theorem retryGo_spec (f : Nat → CheckResult) (p fp : String) :
    ∀ (r a : Nat) (e : String), 1 ≤ a →
      (retryGo f p fp a r e).attemptsMade ≤ r ∧
      (retryGo f p fp a r e).backoffsMs =
        (List.range' a (retryGo f p fp a r e).attemptsMade).map (fun k => k * k * 100) ∧
      ((∀ i, a ≤ i → i < a + r → (f i).alive = false) →
        (retryGo f p fp a r e).result.alive = false ∧
        (retryGo f p fp a r e).result.error =
          if r = 0 then e else (f (a + r - 1)).error) := by
  intro r
  induction r with
  | zero =>
    intro a e ha
    refine ⟨le_refl 0, by simp [retryGo], fun _ => ⟨rfl, by simp [retryGo]⟩⟩
  | succ r ih =>
    intro a e ha
    have ha0 : 0 < a := ha
    by_cases hres : (f a).alive
    · have hunf : retryGo f p fp a (r + 1) e =
          { result := f a, attemptsMade := 1, backoffsMs := [a * a * 100] } := by
        simp [retryGo, hres, ha0]
      rw [hunf]
      dsimp only
      refine ⟨by omega, by simp, fun h => ?_⟩
      exact absurd (h a le_rfl (by omega)) (by simp [hres])
    · have hunf : retryGo f p fp a (r + 1) e =
          { result := (retryGo f p fp (a + 1) r (f a).error).result,
            attemptsMade := (retryGo f p fp (a + 1) r (f a).error).attemptsMade + 1,
            backoffsMs :=
              a * a * 100 :: (retryGo f p fp (a + 1) r (f a).error).backoffsMs } := by
        simp [retryGo, hres, ha0]
      obtain ⟨iha, ihb, ihe⟩ := ih (a + 1) ((f a).error) (by omega)
      rw [hunf]
      dsimp only
      refine ⟨by omega, ?_, fun h => ?_⟩
      · rw [ihb, List.range'_succ, List.map_cons]
      · obtain ⟨he1, he2⟩ :=
          ihe (fun i h1 h2 => h i (by omega) (by omega))
        refine ⟨he1, ?_⟩
        rw [he2]
        rcases Nat.eq_zero_or_pos r with hr | hr
        · subst hr
          simp
        · have hidx : a + 1 + r - 1 = a + (r + 1) - 1 := by omega
          rw [if_neg (show ¬ r = 0 by omega), if_neg (show ¬ r + 1 = 0 by omega), hidx]

/-- The retry loop started at attempt 0 with budget c+1 attempts: at most
c+1 attempts, the quadratic backoff schedule, and the last error on full
failure. -/
theorem retryRun_spec (f : Nat → CheckResult) (p fp : String) (c : Nat) :
    (retryGo f p fp 0 (c + 1) "").attemptsMade ≤ c + 1 ∧
    (retryGo f p fp 0 (c + 1) "").backoffsMs =
      backoffSchedule (retryGo f p fp 0 (c + 1) "").attemptsMade ∧
    ((∀ i, i < c + 1 → (f i).alive = false) →
      (retryGo f p fp 0 (c + 1) "").result.alive = false ∧
      (retryGo f p fp 0 (c + 1) "").result.error = (f c).error) := by
  by_cases h0 : (f 0).alive
  · have hunf : retryGo f p fp 0 (c + 1) "" =
        { result := f 0, attemptsMade := 1, backoffsMs := [] } := by
      simp [retryGo, h0]
    rw [hunf]
    dsimp only
    refine ⟨by omega, by simp [backoffSchedule], fun h => ?_⟩
    exact absurd (h 0 (by omega)) (by simp [h0])
  · have hunf : retryGo f p fp 0 (c + 1) "" =
        { result := (retryGo f p fp 1 c (f 0).error).result,
          attemptsMade := (retryGo f p fp 1 c (f 0).error).attemptsMade + 1,
          backoffsMs := (retryGo f p fp 1 c (f 0).error).backoffsMs } := by
      simp [retryGo, h0]
    obtain ⟨iha, ihb, ihe⟩ := retryGo_spec f p fp c 1 ((f 0).error) le_rfl
    rw [hunf]
    dsimp only
    refine ⟨by omega, ?_, fun h => ?_⟩
    · rw [ihb]
      simp [backoffSchedule]
    · obtain ⟨he1, he2⟩ := ihe (fun i h1 h2 => h i (by omega))
      refine ⟨he1, ?_⟩
      rw [he2]
      rcases Nat.eq_zero_or_pos c with hc | hc
      · subst hc
        simp
      · have hidx : 1 + c - 1 = c := by omega
        rw [if_neg (show ¬ c = 0 by omega), hidx]

/-! ## C10 -/

/-- C10: if the environment variable named by api.api_key_env is unset or
empty when the server is constructed, the authentication middleware admits
every request, whatever X-Api-Key header or key query parameter is
presented. -/
theorem c10_empty_key_disables_auth (env : String → String) (name : String)
    (h : env name = "") (headerKey queryKey : String) :
    authMiddleware (serverExpectedKey env name) headerKey queryKey =
      AuthDecision.allow := by
  simp [authMiddleware, serverExpectedKey, h]

/-- C10 witness: an empty environment admits a request carrying a wrong
header key and no query key. -/
theorem c10_empty_key_disables_auth_witness :
    authMiddleware (serverExpectedKey (fun _ => "") "PROXY_API_KEY")
      "wrong-key" "" = AuthDecision.allow :=
  c10_empty_key_disables_auth (fun _ => "") "PROXY_API_KEY" rfl "wrong-key" ""

/-! ## C3 -/

/-- C3: evaluating the SOCKS4 checker on a socks4 candidate shows it
negotiates with the SOCKS version-5 wire protocol (greeting 05 01 00), not
the v4 request format the spec and the function's own documentation
describe: CheckSOCKS4 constructs its dialer with proxy.SOCKS5. -/
theorem c3_socks4_check_uses_socks5_wire :
    (checkSOCKS4Dialer "1.2.3.4:1080").versionByte = 5 ∧
    (checkSOCKS4Dialer "1.2.3.4:1080").greeting = [5, 1, 0] ∧
    (checkSOCKS4Dialer "1.2.3.4:1080").versionByte ≠ socks4VersionByte := by
  refine ⟨rfl, rfl, ?_⟩
  decide

/-! ## C4 -/

/-- C4 counterexample: with nominal 50, 10 live goroutines, an FD rlimit
of 40 and max_fd_usage_percent 80, the code returns 100: that is above
the nominal 50, and it is not the minimum of the applicable reductions
either, since the claimed FD cap rlimit*pct/150 is 21. -/
theorem c4_min_reduction_counterexample :
    adjustConcurrency 50 10 (some 40) 80 0 = 100 ∧
    ¬ adjustConcurrency 50 10 (some 40) 80 0 ≤ 50 ∧
    40 * 80 / 150 = 21 := by
  decide

/-- C4 amended: the effective limit is the first applicable reduction in
the fixed order goroutine-overload (times 6/10), FD cap (rlimit times pct
over 150, floored at 100), memory (times 7/10) — not the minimum of the
applicable reductions — and it never exceeds max(nominal, 100); in
particular it never exceeds the nominal whenever the nominal is at least
100. -/
theorem c4_first_match_chain (r g : Nat) (rlim : Option Nat) (pct alloc : Nat) :
    adjustConcurrency r g rlim pct alloc ≤ max r 100 ∧
    (100 ≤ r → adjustConcurrency r g rlim pct alloc ≤ r) ∧
    (r * 2 < g → adjustConcurrency r g rlim pct alloc = r * 6 / 10) := by
  have h610 : r * 6 / 10 ≤ r := Nat.div_le_of_le_mul (by omega)
  have h710 : r * 7 / 10 ≤ r := Nat.div_le_of_le_mul (by omega)
  have hmem : memoryAdjust r alloc ≤ r := by
    unfold memoryAdjust
    split <;> omega
  unfold adjustConcurrency
  by_cases hg : r * 2 < g
  · simp only [if_pos hg]
    exact ⟨le_trans h610 (le_max_left r 100), fun _ => h610, fun _ => trivial⟩
  · simp only [if_neg hg]
    refine ⟨?_, fun h100 => ?_, fun hc => absurd hc hg⟩
    · cases rlim with
      | none => exact le_trans hmem (le_max_left r 100)
      | some cur =>
        by_cases hfd : cur * pct < r * 150
        · simp only [if_pos hfd]
          have hlt : cur * pct / 150 < r :=
            (Nat.div_lt_iff_lt_mul (by omega)).mpr (by omega)
          split
          · exact le_max_right r 100
          · exact le_trans (le_of_lt hlt) (le_max_left r 100)
        · simp only [if_neg hfd]
          exact le_trans hmem (le_max_left r 100)
    · cases rlim with
      | none => exact hmem
      | some cur =>
        by_cases hfd : cur * pct < r * 150
        · simp only [if_pos hfd]
          have hlt : cur * pct / 150 < r :=
            (Nat.div_lt_iff_lt_mul (by omega)).mpr (by omega)
          split <;> omega
        · simp only [if_neg hfd]
          exact hmem

/-- C4 amended witness: at nominal 200 with 500 live goroutines the
goroutine reduction applies and the limit stays at or below the nominal. -/
theorem c4_first_match_chain_witness :
    adjustConcurrency 200 500 (some 100000) 80 0 ≤ 200 :=
  (c4_first_match_chain 200 500 (some 100000) 80 0).2.1 (by omega)

/-! ## C9 -/

/-- C9: GetProxies and GetAll never modify the published snapshot — the
proxy sequence, stats and updated timestamp are unchanged by either call
(only the round-robin counter moves) — and GetAll returns a copy, built
element by element, that equals the current proxy sequence. -/
theorem c9_get_operations_preserve_snapshot (st : ManagerState) (n : Int)
    (perm : List Nat) :
    (managerGetProxies st n perm).2.snap = st.snap ∧
    (managerGetAll st).2 = st ∧
    (managerGetAll st).1 = st.snap.proxies := by
  refine ⟨?_, rfl, copyProxies_eq st.snap.proxies⟩
  unfold managerGetProxies
  dsimp only
  split
  · rfl
  · split <;> split <;> rfl

/-! ## C8 -/

/-- C8: restoring from the backing store at startup (current snapshot
still the initial empty one) publishes exactly the persisted entries whose
last_check is within one hour of the load time; every older entry is
dropped. -/
theorem c8_load_filters_stale (s : Snapshot) (now t0 : Int) :
    (loadFromStorage (some s) now (initialSnapshot t0)).proxies =
      s.proxies.filter (fun p => decide (now - 3600 < p.lastCheck)) ∧
    ∀ p ∈ (loadFromStorage (some s) now (initialSnapshot t0)).proxies,
      now - 3600 < p.lastCheck := by
  unfold loadFromStorage
  dsimp only
  by_cases hlen :
      0 < (s.proxies.filter (fun p => decide (now - 3600 < p.lastCheck))).length
  · rw [if_pos hlen]
    constructor
    · rfl
    · intro p hp
      have hp2 : p ∈ s.proxies.filter (fun q => decide (now - 3600 < q.lastCheck)) := hp
      exact of_decide_eq_true (List.mem_filter.mp hp2).2
  · rw [if_neg hlen]
    have hnil : s.proxies.filter (fun p => decide (now - 3600 < p.lastCheck)) = [] :=
      List.length_eq_zero.mp (by omega)
    constructor
    · simp [initialSnapshot, hnil]
    · intro p hp
      simp [initialSnapshot] at hp

/-- C8 witness: a persisted snapshot holding one fresh and one stale entry
restores to exactly the fresh one. -/
theorem c8_load_filters_stale_witness :
    (loadFromStorage
      (some { proxies :=
                [{ address := "1.1.1.1:80", protocol := "http", source := "scraped",
                   alive := true, latencyMs := 5, lastCheck := 9000 },
                 { address := "2.2.2.2:1080", protocol := "socks5", source := "scraped",
                   alive := true, latencyMs := 7, lastCheck := 1000 }],
              stats := { totalScraped := 2, totalAlive := 2, totalDead := 0,
                         alivePercent := 100, lastCheckTime := 9000 },
              updated := 9000 })
      10000 (initialSnapshot 0)).proxies =
      [{ address := "1.1.1.1:80", protocol := "http", source := "scraped",
         alive := true, latencyMs := 5, lastCheck := 9000 }] := by
  rw [(c8_load_filters_stale _ 10000 0).1]
  decide

/-! ## C2 -/

/-- C2: every snapshot the program publishes — the initial one stored by
NewManager, the scraped-batch publish and the combined publish of
runAggregationCycle, the reload publish of handleReload, and the snapshot
restored by LoadFromStorage (from any current snapshot already satisfying
the invariant) — satisfies stats.total_alive = len(proxies), so after any
such Update a reader calling Get observes a snapshot whose list length
equals its total_alive. -/
theorem c2_total_alive_matches_length (st : ManagerState)
    (scraped zmapR reloadR : List CheckResult) (totalScraped nProxies : Nat)
    (now t0 : Int) (stored : Option Snapshot) (cur : Snapshot) :
    ((managerGet (newManagerState t0)).stats.totalAlive =
       (managerGet (newManagerState t0)).proxies.length) ∧
    ((managerGet (managerUpdate st (scrapedPublish scraped totalScraped now).1
        (scrapedPublish scraped totalScraped now).2 now)).stats.totalAlive =
     (managerGet (managerUpdate st (scrapedPublish scraped totalScraped now).1
        (scrapedPublish scraped totalScraped now).2 now)).proxies.length) ∧
    ((managerGet (managerUpdate st (combinedPublish scraped zmapR totalScraped now).1
        (combinedPublish scraped zmapR totalScraped now).2 now)).stats.totalAlive =
     (managerGet (managerUpdate st (combinedPublish scraped zmapR totalScraped now).1
        (combinedPublish scraped zmapR totalScraped now).2 now)).proxies.length) ∧
    ((managerGet (managerUpdate st (reloadPublish reloadR nProxies now).1
        (reloadPublish reloadR nProxies now).2 now)).stats.totalAlive =
     (managerGet (managerUpdate st (reloadPublish reloadR nProxies now).1
        (reloadPublish reloadR nProxies now).2 now)).proxies.length) ∧
    (cur.stats.totalAlive = cur.proxies.length →
      (loadFromStorage stored now cur).stats.totalAlive =
        (loadFromStorage stored now cur).proxies.length) := by
  refine ⟨rfl, ?_, ?_, ?_, ?_⟩
  · simp [managerGet, managerUpdate, scrapedPublish, collectAlive_count]
  · simp [managerGet, managerUpdate, combinedPublish, collectAlive_count]
  · simp [managerGet, managerUpdate, reloadPublish, collectAlive_count]
  · intro hcur
    unfold loadFromStorage
    cases stored with
    | none => exact hcur
    | some s =>
      dsimp only
      split
      · rfl
      · exact hcur

/-- C2 witness: the invariant carried through LoadFromStorage from the
initial empty snapshot. -/
theorem c2_total_alive_matches_length_witness :
    (loadFromStorage none 0 (initialSnapshot 0)).stats.totalAlive =
      (loadFromStorage none 0 (initialSnapshot 0)).proxies.length :=
  (c2_total_alive_matches_length (newManagerState 0) [] [] [] 0 0 0 0 none
    (initialSnapshot 0)).2.2.2.2 rfl

/-! ## C6 -/

/-- C6: whenever the current snapshot's proxy list is empty — including
before the first Update, since NewManager publishes an empty well-formed
snapshot — every GET /get-proxy request is answered 503 with body
error = No alive proxies available. -/
theorem c6_empty_snapshot_503 (st : ManagerState) (q : GetProxyQuery)
    (perm : List Nat) (now : Int) (h : st.snap.proxies = []) :
    (handleGetProxy st q perm).1 =
      { status := 503, body := RespBody.jsonError "No alive proxies available" } ∧
    (newManagerState now).snap.proxies = [] := by
  constructor
  · unfold handleGetProxy managerGet
    simp [h]
  · rfl

/-- C6 witness: a request against the freshly constructed manager is
answered 503 with the documented body. -/
theorem c6_empty_snapshot_503_witness :
    (handleGetProxy (newManagerState 0)
        { allParam := "", limitParam := "", formatParam := "",
          acceptHeader := "", protocolParam := "" } []).1 =
      { status := 503, body := RespBody.jsonError "No alive proxies available" } :=
  (c6_empty_snapshot_503 (newManagerState 0)
      { allParam := "", limitParam := "", formatParam := "",
        acceptHeader := "", protocolParam := "" } [] 0 rfl).1

/-! ## C5 -/

/-- C5: for every candidate the validator dispatches (socks4/socks5 via
CheckSingleWithProtocol, everything else via the HTTP path of
CheckProxies, i.e. checkProxyWithRetries), at most clampRetries(retries)+1
attempts are made in total, the loop sleeps k*k*100 ms before the k-th
retry, and when every attempt fails (given SOCKS checking is enabled for
SOCKS candidates) the final CheckResult is dead and carries the error
message of the last attempt. -/
theorem c5_retry_discipline (retries : Int) (socksEnabled : Bool)
    (proto proxyAddr : String) (f : Nat → CheckResult) :
    (validateCandidate retries socksEnabled proto proxyAddr f).attemptsMade ≤
      clampRetries retries + 1 ∧
    (validateCandidate retries socksEnabled proto proxyAddr f).backoffsMs =
      backoffSchedule
        (validateCandidate retries socksEnabled proto proxyAddr f).attemptsMade ∧
    ((∀ i, i < clampRetries retries + 1 → (f i).alive = false) →
      (proto = "socks4" ∨ proto = "socks5" → socksEnabled = true) →
      (validateCandidate retries socksEnabled proto proxyAddr f).result.alive = false ∧
      (validateCandidate retries socksEnabled proto proxyAddr f).result.error =
        (f (clampRetries retries)).error) := by
  unfold validateCandidate checkSingleSocks checkProxyWithRetries
  by_cases hp : proto = "socks4" ∨ proto = "socks5"
  · rw [if_pos hp]
    cases socksEnabled with
    | true =>
      rw [if_pos rfl]
      obtain ⟨h1, h2, h3⟩ :=
        retryRun_spec (fun i => { f i with protocol := proto }) proxyAddr proto
          (clampRetries retries)
      refine ⟨h1, h2, fun hall _ => ?_⟩
      exact h3 (fun i hi => hall i hi)
    | false =>
      rw [if_neg (by simp)]
      refine ⟨by dsimp only; omega, by simp [backoffSchedule], fun hall himp => ?_⟩
      exact absurd (himp hp) (by simp)
  · rw [if_neg hp]
    obtain ⟨h1, h2, h3⟩ := retryRun_spec f proxyAddr "" (clampRetries retries)
    exact ⟨h1, h2, fun hall _ => h3 hall⟩

/-- C5 witness: a socks4 candidate with retries = 1 whose two attempts
both fail with connection refused ends dead with that error, after at most
two attempts and the 100 ms backoff. -/
theorem c5_retry_discipline_witness :
    (validateCandidate 1 true "socks4" "1.2.3.4:1080"
        (fun _ => { proxy := "1.2.3.4:1080", protocol := "", alive := false,
                    latencyMs := 0, error := "refused" })).result.error = "refused" :=
  ((c5_retry_discipline 1 true "socks4" "1.2.3.4:1080"
      (fun _ => { proxy := "1.2.3.4:1080", protocol := "", alive := false,
                  latencyMs := 0, error := "refused" })).2.2
    (fun _ _ => rfl) (fun _ => rfl)).2

/-! ## C1 -/

/-- C1: the protocol query parameter does not filter.  On a snapshot with
one http and one socks5 proxy, GET /get-proxy?all=1&protocol=socks5 with
format=json returns both proxies, not the socks5 subset: handleGetProxy
never reads the protocol parameter. -/
theorem c1_protocol_param_ignored :
    (handleGetProxy twoProtocolState allSocks5Query []).1 =
      { status := 200,
        body := RespBody.jsonProxies 2 2 twoProtocolState.snap.proxies } ∧
    twoProtocolState.snap.proxies.filter (fun p => p.protocol == "socks5") =
      [{ address := "2.2.2.2:1080", protocol := "socks5", source := "scraped",
         alive := true, latencyMs := 7, lastCheck := 0 }] ∧
    RespBody.jsonProxies 2 2 twoProtocolState.snap.proxies ≠
      RespBody.jsonProxies 2 2
        [{ address := "2.2.2.2:1080", protocol := "socks5", source := "scraped",
           alive := true, latencyMs := 7, lastCheck := 0 }] := by
  refine ⟨?_, by decide, by decide⟩
  decide

/-! ## C7 -/

/-- The finset of a mapped list is the image of the finset. -/
theorem toFinset_map_eq_image {α β : Type} [DecidableEq α] [DecidableEq β]
    (f : α → β) (l : List α) : (l.map f).toFinset = l.toFinset.image f := by
  ext b
  simp [List.mem_map, Finset.mem_image]

/-- C7: for any bag of input lines, the deduplicated aggregator output has
no two entries sharing the key lowercase(trim(address))|protocol, its size
is exactly the number of distinct (address, protocol) pairs derivable from
those lines under the parse and protocol-resolution rules, and every
derivable pair — in particular two entries with equal address and
different protocols — is represented in the output. -/
theorem c7_dedup_cardinality (d : List Char) (lines : List (List Char)) :
    ((deduplicateProxies (parseProxies d lines)).map dedupKey).Nodup ∧
    (deduplicateProxies (parseProxies d lines)).length =
      ((parseProxies d lines).map ppPair).toFinset.card ∧
    ∀ p ∈ parseProxies d lines,
      ∃ q ∈ deduplicateProxies (parseProxies d lines), ppPair q = ppPair p := by
  obtain ⟨hnd, hmem⟩ := dedupGo_keys (parseProxies d lines) []
  have hmem2 : ∀ k, k ∈ (deduplicateProxies (parseProxies d lines)).map dedupKey ↔
      k ∈ (parseProxies d lines).map dedupKey := by
    intro k
    rw [deduplicateProxies, hmem k]
    simp
  have hkeymap : (parseProxies d lines).map dedupKey =
      ((parseProxies d lines).map ppPair).map keyOfPair := by
    rw [List.map_map]
    refine List.map_congr_left (fun p hp => ?_)
    rw [dedupKey_shaped (parsed_shape hp)]
    rfl
  have hinj : Set.InjOn keyOfPair
      (((parseProxies d lines).map ppPair).toFinset : Set (List Char × List Char)) := by
    intro x hx y hy hxy
    simp only [Finset.coe_sort_coe, Finset.mem_coe, List.mem_toFinset,
      List.mem_map] at hx hy
    obtain ⟨px, hpx, hpxe⟩ := hx
    obtain ⟨py, hpy, hpye⟩ := hy
    have hxp : '|' ∉ x.1 := by
      intro hbar
      have := parsed_shape hpx
      rw [← hpxe] at hbar
      exact addrChar_ne_pipe (this '|' hbar) rfl
    have hyp : '|' ∉ y.1 := by
      intro hbar
      have := parsed_shape hpy
      rw [← hpye] at hbar
      exact addrChar_ne_pipe (this '|' hbar) rfl
    obtain ⟨h1, h2⟩ := pipe_split_inj x.1 y.1 hxp hyp hxy
    exact Prod.ext h1 h2
  refine ⟨hnd, ?_, ?_⟩
  · calc (deduplicateProxies (parseProxies d lines)).length
        = ((deduplicateProxies (parseProxies d lines)).map dedupKey).length := by
          rw [List.length_map]
      _ = ((deduplicateProxies (parseProxies d lines)).map dedupKey).toFinset.card :=
          (List.toFinset_card_of_nodup hnd).symm
      _ = ((parseProxies d lines).map dedupKey).toFinset.card := by
          congr 1
          ext k
          simp only [List.mem_toFinset]
          exact hmem2 k
      _ = (((parseProxies d lines).map ppPair).map keyOfPair).toFinset.card := by
          rw [hkeymap]
      _ = (((parseProxies d lines).map ppPair).toFinset.image keyOfPair).card := by
          rw [toFinset_map_eq_image]
      _ = ((parseProxies d lines).map ppPair).toFinset.card :=
          Finset.card_image_of_injOn hinj
  · intro p hp
    have hkp : dedupKey p ∈ (parseProxies d lines).map dedupKey :=
      List.mem_map_of_mem dedupKey hp
    obtain ⟨q, hq, hkq⟩ := List.mem_map.mp ((hmem2 (dedupKey p)).mpr hkp)
    refine ⟨q, hq, ?_⟩
    have hqparsed := dedupGo_subset (parseProxies d lines) [] q hq
    have hshq := parsed_shape hqparsed
    have hshp := parsed_shape hp
    rw [dedupKey_shaped hshq, dedupKey_shaped hshp] at hkq
    obtain ⟨h1, h2⟩ := pipe_split_inj q.address p.address
      (fun hbar => addrChar_ne_pipe (hshq '|' hbar) rfl)
      (fun hbar => addrChar_ne_pipe (hshp '|' hbar) rfl) hkq
    simp [ppPair, h1, h2]

/-- C7 witness: one source body whose lines carry the same address under
two protocols plus an exact duplicate dedups to two entries, matching the
two distinct (address, protocol) pairs, and both pairs survive. -/
theorem c7_dedup_cardinality_witness :
    (deduplicateProxies (parseProxies ("http".data)
        ["1.2.3.4:80".data, "socks5://1.2.3.4:80".data, "1.2.3.4:80".data])).length =
      ((parseProxies ("http".data)
        ["1.2.3.4:80".data, "socks5://1.2.3.4:80".data, "1.2.3.4:80".data]).map
          ppPair).toFinset.card ∧
    (deduplicateProxies (parseProxies ("http".data)
        ["1.2.3.4:80".data, "socks5://1.2.3.4:80".data, "1.2.3.4:80".data])).length = 2 :=
  ⟨(c7_dedup_cardinality ("http".data)
      ["1.2.3.4:80".data, "socks5://1.2.3.4:80".data, "1.2.3.4:80".data]).2.1,
   by decide⟩

end ProxyChecker
